import Mathlib

/-!
# CVNavSystem — formal model of the route-progress tracker

Shallow embedding of the two source files of the repository:

* `src/iphone_gps_api.py` — class `GPS_Navigator`: haversine distance,
  cardinal-direction → left/right resolution, instruction rewriting, and the
  indexed tick loop in `__call__` (the "distance-increasing" deviation policy).
* `src/gps_api.py` — the laptop variant: `get_directions`,
  `get_closest_step`, and the closest-step tick loop in `main` (the
  "absolute-threshold" deviation policy).

Numbers that the Python code holds as `float` are modelled as `ℚ` where the
code only compares and subtracts them (headings, coordinates fed to an
abstract distance function), and as `ℝ` for the trigonometric haversine
formula.  The tick loops are modelled generically over the distance function
they call, and instantiated with the haversine distance for the composed
program; witnesses and counterexamples instantiate them with the concrete
computable distance `|a - b|` on `ℤ`.
-/

namespace CVNav

/-- Python's `%` on reals with a positive modulus: `a % n = a - n * floor (a / n)`,
always in `[0, n)` for `n > 0`.  Used by `get_turn_direction` (line 112). -/
def pythonMod (a n : ℚ) : ℚ := a - n * (⌊a / n⌋ : ℚ)

/-- The dict `self.cardinal_directions` (iphone_gps_api.py lines 32-41). -/
def cardinal_directions : List (String × ℚ) :=
  [("north", 0), ("northeast", 45), ("east", 90), ("southeast", 135),
   ("south", 180), ("southwest", 225), ("west", 270), ("northwest", 315)]

/-- Dict lookup `self.cardinal_directions[target]`; `none` models `KeyError`. -/
def lookupBearing (c : String) : Option ℚ :=
  (cardinal_directions.find? (fun p => p.1 == c)).map Prod.snd

/-- `GPS_Navigator.get_turn_direction` (iphone_gps_api.py lines 100-117):
`angle_diff = (target - current + 360) % 360`; `"right"` when
`angle_diff < 180`, else `"left"`. -/
def get_turn_direction (current_heading : ℚ) (target : String) : Option String :=
  (lookupBearing target).map (fun t =>
    if pythonMod (t - current_heading + 360) 360 < 180 then "right" else "left")

/-! String utilities modelling Python's `in` operator and `str.replace`
(which replaces every non-overlapping occurrence, left to right). -/

/-- `needle` begins the list `hay`. -/
def leadsList : List Char → List Char → Bool
  | [], _ => true
  | _ :: _, [] => false
  | a :: as, b :: bs => a == b && leadsList as bs

/-- `needle` occurs somewhere in `hay` (Python `needle in hay`). -/
def occursIn (needle : List Char) : List Char → Bool
  | [] => needle.isEmpty
  | c :: rest => leadsList needle (c :: rest) || occursIn needle rest

/-- Fuel-bounded worker for `replaceAll`; with fuel `hay.length` and a
non-empty needle it is exactly Python's `str.replace`. -/
def replaceAllAux (needle repl : List Char) : ℕ → List Char → List Char
  | 0, hay => hay
  | _ + 1, [] => []
  | fuel + 1, c :: rest =>
    if leadsList needle (c :: rest) && !needle.isEmpty then
      repl ++ replaceAllAux needle repl fuel (List.drop needle.length (c :: rest))
    else
      c :: replaceAllAux needle repl fuel rest

/-- Python `hay.replace(needle, repl)` for a non-empty needle. -/
def pyReplace (hay needle repl : String) : String :=
  ⟨replaceAllAux needle.toList repl.toList hay.toList.length hay.toList⟩

/-- Python `needle in hay` on strings. -/
def pyIn (needle hay : String) : Bool := occursIn needle.toList hay.toList

/-- The literal iteration order of cardinal names in
`convert_to_turn_directions` (iphone_gps_api.py line 132): every compound
name is visited before the simple names it contains. -/
def codeCardinalOrder : List String :=
  ["northeast", "northwest", "southeast", "southwest", "east", "west", "north", "south"]

/-- Body of the inner loop of `convert_to_turn_directions`
(iphone_gps_api.py lines 133-135): if the cardinal name `c` occurs in the
(current, possibly already rewritten) text `s`, replace every occurrence by
the resolved turn word.  The `none` branch of the bearing lookup is
unreachable for names drawn from the dict's keys. -/
def rewriteStep (current_heading : ℚ) (s c : String) : String :=
  if pyIn c s then
    match get_turn_direction current_heading c with
    | some w => pyReplace s c w
    | none => s
  else s

/-- The inner loop of `convert_to_turn_directions` on one instruction
(iphone_gps_api.py lines 132-135): fold `rewriteStep` over the cardinal
names in `order`. -/
def rewriteInstr (current_heading : ℚ) (order : List String) (instr : String) : String :=
  order.foldl (rewriteStep current_heading) instr

/-- One step of a route, as consumed by both tick loops: the Google payload's
`html_instructions`, `start_location`, `end_location` and `distance.text`
fields.  The coordinate type is a parameter: `ℚ × ℚ` for the provider payload
(`(lat, lng)` pairs), `ℝ × ℝ` when fed to the haversine distance. -/
structure RStep (α : Type) where
  html_instructions : String
  start_location : α
  end_location : α
  distance_text : String
deriving DecidableEq

/-- `convert_to_turn_directions` (iphone_gps_api.py lines 119-137) at a fixed
heading sample: rewrite each step's instruction in place.  (The heading is
read once by `get_current_heading` before the loop; it is a parameter here.) -/
def convert_to_turn_directions (current_heading : ℚ) (steps : List (RStep α)) :
    List (RStep α) :=
  steps.map (fun s =>
    ⟨rewriteInstr current_heading codeCardinalOrder s.html_instructions,
     s.start_location, s.end_location, s.distance_text⟩)

/-! ## Directions responses (the upstream payload, already JSON-decoded) -/

/-- `route["legs"][i]` — carries the step list. -/
structure GLeg where
  steps : List (RStep (ℚ × ℚ))
deriving DecidableEq

/-- `data["routes"][i]` — carries the leg list. -/
structure GRouteObj where
  legs : List GLeg
deriving DecidableEq

/-- The decoded directions response: HTTP status code, payload `status`
string, and `routes`. -/
structure DirectionsResponse where
  status_code : ℕ
  status : String
  routes : List GRouteObj
deriving DecidableEq

/-- Outcome of a Python function call: a returned value, a bare
`return None` (or falling off the end of the function), or an uncaught
exception. -/
inductive PyRet (α : Type) where
  | val (a : α)
  | retNone
  | crash
deriving DecidableEq

/-- `get_directions` of gps_api.py (lines 17-53): on HTTP 200 and payload
status `"OK"` it returns `route["legs"][0]["steps"]`; otherwise it prints an
error and returns `None`.  Indexing `routes[0]` / `legs[0]` on an empty list
raises `IndexError` (`crash`). -/
def gpsGetDirections (resp : DirectionsResponse) : PyRet (List (RStep (ℚ × ℚ))) :=
  if resp.status_code = 200 then
    if resp.status = "OK" then
      match resp.routes.head? with
      | some route =>
        match route.legs.head? with
        | some leg => .val leg.steps
        | none => .crash
      | none => .crash
    else .retNone
  else .retNone

/-- `GPS_Navigator.get_directions` (iphone_gps_api.py lines 43-82): the same
branching, but the success arm only computes
`steps = self.convert_to_turn_directions(...)` (plus an in-place reformatting
of the location fields, a representation change that is the identity here)
and never executes a `return steps` — the function body has no return
statement on that path, so Python returns `None`. -/
def iphoneGetDirections (current_heading : ℚ) (resp : DirectionsResponse) :
    PyRet (List (RStep (ℚ × ℚ))) :=
  if resp.status_code = 200 then
    if resp.status = "OK" then
      match resp.routes.head? with
      | some route =>
        match route.legs.head? with
        | some leg =>
          let steps := convert_to_turn_directions current_heading leg.steps
          -- lines 71-76 rebuild start_location/end_location as tuples;
          -- the computed list `steps` is then dropped: no return statement.
          let _ := steps
          .retNone
        | none => .crash
      | none => .crash
    else .retNone
  else .retNone

/-- `closest_step = steps[0]` (gps_api.py line 159), the first access the
session makes to an installed route; raises `IndexError` on an empty list. -/
def gpsFirstStep (steps : List (RStep (ℚ × ℚ))) : PyRet (RStep (ℚ × ℚ)) :=
  match steps.head? with
  | some s => .val s
  | none => .crash

/-! ## Geo math (iphone_gps_api.py lines 152-174), over `ℝ` -/

/-- `math.radians`: degrees to radians. -/
noncomputable def pyRadians (d : ℝ) : ℝ := d * (Real.pi / 180)

/-- The intermediate `a` of `GPS_Navigator.geodesic_distance` (line 170):
`sin(dlat/2)**2 + cos(lat1) * cos(lat2) * sin(dlon/2)**2`, with both
coordinates first converted to radians (lines 164-165). -/
noncomputable def haversine_a (coord_1 coord_2 : ℝ × ℝ) : ℝ :=
  Real.sin ((pyRadians coord_2.1 - pyRadians coord_1.1) / 2) ^ 2 +
    Real.cos (pyRadians coord_1.1) * Real.cos (pyRadians coord_2.1) *
      Real.sin ((pyRadians coord_2.2 - pyRadians coord_1.2) / 2) ^ 2

/-- `math.atan2 y x`, i.e. the argument of the complex number `x + y*i`. -/
noncomputable def pyAtan2 (y x : ℝ) : ℝ := Complex.arg ⟨x, y⟩

/-- `GPS_Navigator.geodesic_distance` (lines 152-174):
`R * (2 * atan2(sqrt(a), sqrt(1 - a)))` with `R = 6373.0 * 1e3` meters. -/
noncomputable def geodesic_distance (coord_1 coord_2 : ℝ × ℝ) : ℝ :=
  6373.0 * 1000 *
    (2 * pyAtan2 (Real.sqrt (haversine_a coord_1 coord_2))
      (Real.sqrt (1 - haversine_a coord_1 coord_2)))

/-! ## The iphone tick loop (`GPS_Navigator.__call__`, lines 226-250)

The loop state is `(steps, step_idx, prev_distance)`.  One iteration of the
`while step_idx < len(steps)` body is modelled as a function of the state,
the tick's location sample, and — for the deviation arm — the value the
in-tick `get_directions` call would produce (`none` models a `None`
return).  The distance function the loop calls is a parameter so that the
control flow can be studied for any distance; `iphoneTickRun` below fixes it
to `geodesic_distance` as in the source. -/

/-- Loop state of `GPS_Navigator.__call__`. -/
structure IState (α β : Type) where
  steps : List (RStep α)
  step_idx : ℕ
  prev_distance : β
deriving DecidableEq

/-- What one iteration decided. -/
inductive IEvent where
  | arrived
  | deviated
  | nochange
deriving DecidableEq

/-- Result of one iteration: continue with a new state, the whole call
returned (the in-tick `get_directions` gave `None`, line 241-242), or an
uncaught `IndexError` from `steps[0]`. -/
inductive ITickResult (α β : Type) where
  | next (st : IState α β) (ev : IEvent)
  | terminated
  | crash
deriving DecidableEq

/-- One iteration of the loop body (iphone_gps_api.py lines 230-250):

* `distance = self.geodesic_distance(current_location, steps[0]["end_location"])`
  — note the source reads `steps[0]`, not `steps[step_idx]`;
* `if distance < self.eps`: `step_idx += 1` (the `print` of the next step is
  display-only);
* `elif distance > prev_distance`: refetch directions; on `None` the call
  returns; otherwise `step_idx = 0` and `prev_distance` is recomputed
  against the new route (line 247) — and then unconditionally overwritten
  with the old `distance` by line 249;
* otherwise: no change;
* finally `prev_distance = distance` (line 249, on every path that
  continues). -/
def iphoneTick [LinearOrder β] (dist : α → α → β) (eps : β)
    (st : IState α β) (sample : α) (rec : Option (List (RStep α))) :
    ITickResult α β :=
  match st.steps.head? with
  | none => .crash
  | some s0 =>
    let d := dist sample s0.end_location
    if d < eps then
      .next ⟨st.steps, st.step_idx + 1, d⟩ .arrived
    else if st.prev_distance < d then
      match rec with
      | none => .terminated
      | some newSteps =>
        match newSteps.head? with
        | none => .crash
        | some _ => .next ⟨newSteps, 0, d⟩ .deviated
    else
      .next ⟨st.steps, st.step_idx, d⟩ .nochange

/-- The loop body with the distance function the source actually calls. -/
noncomputable def iphoneTickRun (eps : ℝ) :=
  iphoneTick geodesic_distance eps

/-- States of the iphone tick loop reachable from the setup at lines 226-227
(`step_idx = 0`, `prev_distance = distance to steps[0].end`): each further
tick runs only under the loop guard `step_idx < len(steps)` and must continue
(`.next`). -/
inductive IReach [LinearOrder β] (dist : α → α → β) (eps : β) :
    IState α β → Prop where
  | init (steps : List (RStep α)) (s0 : RStep α) (sample : α) :
      steps.head? = some s0 →
      IReach dist eps ⟨steps, 0, dist sample s0.end_location⟩
  | step (st st' : IState α β) (sample : α) (rec : Option (List (RStep α)))
      (ev : IEvent) :
      IReach dist eps st →
      st.step_idx < st.steps.length →
      iphoneTick dist eps st sample rec = .next st' ev →
      IReach dist eps st'

/-! ## The gps_api tick loop (`main`, lines 156-198) -/

/-- `get_closest_step`'s loop body (gps_api.py lines 88-96), acting on the
accumulator `(closest_step, min_distance)`: compute
`geodesic(step_coords, user_coords)` and keep the step when strictly closer.
`min_distance` starts as `float("inf")`, modelled by `⊤` in `WithTop β`. -/
def closestStepF [LinearOrder β] (dist : α → α → β) (current : α) :
    Option (RStep α) × WithTop β → RStep α → Option (RStep α) × WithTop β :=
  fun acc step =>
    if ((dist step.end_location current : β) : WithTop β) < acc.2 then
      (some step, (dist step.end_location current : β))
    else acc

/-- `get_closest_step` (gps_api.py lines 72-97): fold the update over the
steps starting from `(None, float("inf"))`. -/
def get_closest_step [LinearOrder β] (dist : α → α → β) (current : α)
    (steps : List (RStep α)) : Option (RStep α) × WithTop β :=
  steps.foldl (closestStepF dist current) (none, ⊤)

/-- Loop state of `main`: the installed steps, the progress counter
`step_idx`, and `prev_step` (an `Option` because line 194 can store the
`None` produced by `get_closest_step` on an empty route). -/
structure GState (α β : Type) where
  steps : List (RStep α)
  step_idx : ℕ
  prev_step : Option (RStep α)
deriving DecidableEq

/-- Result of one iteration of `main`'s loop: continue with a new state;
`dead` when the in-tick `get_directions` returned `None` — line 187 then
leaves `steps = None` and the next `len(steps)` in the loop guard raises, so
no further state is reached; `crash` for an in-tick `AttributeError`
(`None.get(...)` on line 173). -/
inductive GTickResult (α β : Type) where
  | next (st : GState α β)
  | dead
  | crash
deriving DecidableEq

/-- One iteration of `main`'s loop body (gps_api.py lines 168-198):

* `closest_step, distance = get_closest_step(current_location, steps)`;
* `if distance < 50`: when the closest step's instruction differs from
  `prev_step`'s, store it and `step_idx += 1` (threshold 50 is hard-coded at
  line 172; it is the parameter `thr` here);
* else: refetch directions; on success install them, `prev_step =
  closest_step`, `step_idx = 0`; on `None`, `steps` is overwritten with
  `None` and the loop dies at its next guard evaluation. -/
def gpsTick [LinearOrder β] (dist : α → α → β) (thr : β)
    (st : GState α β) (sample : α) (rec : Option (List (RStep α))) :
    GTickResult α β :=
  let c := get_closest_step dist sample st.steps
  if c.2 < (thr : WithTop β) then
    match c.1, st.prev_step with
    | some cs, some ps =>
      if ps.html_instructions ≠ cs.html_instructions then
        .next ⟨st.steps, st.step_idx + 1, some cs⟩
      else
        .next ⟨st.steps, st.step_idx, st.prev_step⟩
    | _, _ => .crash
  else
    match rec with
    | some newSteps => .next ⟨newSteps, 0, c.1⟩
    | none => .dead

/-- States of `main`'s loop reachable from the setup at lines 159-165
(`prev_step = steps[0]`, `step_idx = 0`): each further tick runs only under
the loop guard `step_idx <= len(steps)` and must continue. -/
inductive GReach [LinearOrder β] (dist : α → α → β) (thr : β) :
    GState α β → Prop where
  | init (steps : List (RStep α)) (s0 : RStep α) :
      steps.head? = some s0 →
      GReach dist thr ⟨steps, 0, some s0⟩
  | step (st st' : GState α β) (sample : α) (rec : Option (List (RStep α))) :
      GReach dist thr st →
      st.step_idx ≤ st.steps.length →
      gpsTick dist thr st sample rec = .next st' →
      GReach dist thr st'

/-! ## Concrete instances used by witnesses and counterexamples

The tick loops only look at coordinates through the distance function, so a
one-dimensional integer "coordinate" with distance `|a - b|` exercises every
branch while staying kernel-computable. -/

/-- `|a - b|` on `ℤ`, a computable stand-in distance for concrete runs. -/
def idist (a b : ℤ) : ℤ := if a ≤ b then b - a else a - b

/-- Demo steps for the iphone loop: end locations 0, 100, 50. -/
def sA : RStep ℤ := ⟨"Head north on 1st", 0, 0, "0.1 mi"⟩

def sB : RStep ℤ := ⟨"Turn at 2nd", 100, 100, "0.2 mi"⟩

def sC : RStep ℤ := ⟨"Head south on 3rd", 50, 50, "0.3 mi"⟩

/-- Demo steps for the gps_api loop: distinct instructions, ends 0 and 10. -/
def gA : RStep ℤ := ⟨"A", 0, 0, "1 m"⟩

def gB : RStep ℤ := ⟨"B", 10, 10, "2 m"⟩

/-- A successful directions response: HTTP 200, status `"OK"`, one route
with one leg of one step. -/
def okResp : DirectionsResponse :=
  ⟨200, "OK", [⟨[⟨[⟨"Head north", (0, 0), (1, 1), "1 mi"⟩]⟩]⟩]⟩

/-- A 200/`"OK"` response whose single leg carries zero steps. -/
def zeroStepResp : DirectionsResponse := ⟨200, "OK", [⟨[⟨[]⟩]⟩]⟩

/-! ## Shared helper lemmas -/

/-- Evaluate `pythonMod a n` once the integer part `z` of `a / n` is known. -/
lemma pythonMod_eval (a n : ℚ) (z : ℤ) (h1 : (z : ℚ) ≤ a / n) (h2 : a / n < z + 1) :
    pythonMod a n = a - n * z := by
  rw [pythonMod, Int.floor_eq_iff.mpr ⟨h1, by exact_mod_cast h2⟩]

/-! ## Claim theorems -/

/-- Claim C1 (code_bug): on a `FOLLOWING(index)` tick the decision distance
is supposed to be to `route[index].end`, but line 231 of iphone_gps_api.py
computes it to `steps[0].end` on every tick.  At the concrete state with
`step_idx = 1`, the sample sits exactly on step 0's end: the code fires
Arrived (distance 0 to `steps[0].end`), even though the distance to the
indexed step's end is 100 — at or beyond the threshold, and above
`prev_distance`, so the spec's rule would have produced Deviated. -/
theorem C1_distance_uses_first_step :
    iphoneTick idist 3 ⟨[sA, sB], 1, 50⟩ 0 none =
      .next ⟨[sA, sB], 2, 0⟩ .arrived ∧
    ¬ idist 0 sB.end_location < 3 ∧ (50 : ℤ) < idist 0 sB.end_location := by
  decide

/-- Claim C2 (code_bug): `get_directions` of gps_api.py returns `None`
exactly on a non-200 HTTP status or a non-`"OK"` payload status; but the
iphone variant's `get_directions` lacks a `return` on its success path
(lines 65-76 compute `steps` and fall through), so on an HTTP-200/`"OK"`
response — contradicting its own docstring — it also returns `None`. -/
theorem C2_get_directions_none :
    (∀ resp : DirectionsResponse,
      gpsGetDirections resp = .retNone ↔
        (resp.status_code ≠ 200 ∨ resp.status ≠ "OK")) ∧
    iphoneGetDirections 0 okResp = .retNone ∧
    okResp.status_code = 200 ∧ okResp.status = "OK" := by
  refine ⟨?_, rfl, rfl, rfl⟩
  intro resp
  by_cases h1 : resp.status_code = 200
  · by_cases h2 : resp.status = "OK"
    · simp only [gpsGetDirections, if_pos h1, if_pos h2]
      cases hr : resp.routes.head? with
      | none => simp [h1, h2]
      | some route =>
        cases hl : route.legs.head? with
        | none => simp [h1, h2, hl]
        | some leg => simp [h1, h2, hl]
    · simp [gpsGetDirections, h1, h2]
  · simp [gpsGetDirections, h1]

/-- Claim C4, counterexample: a deviating tick from `step_idx = 1` does not
leave `current_index` unchanged — the in-tick recomputation (lines 238-245)
resets it to 0. -/
theorem C4_counterexample_deviation_resets_index :
    iphoneTick idist 3 ⟨[sA, sB], 1, 5⟩ 20 (some [sC]) =
      .next ⟨[sC], 0, 20⟩ .deviated ∧
    (⟨[sC], 0, 20⟩ : IState ℤ ℤ).step_idx ≠
      (⟨[sA, sB], 1, 5⟩ : IState ℤ ℤ).step_idx := by
  decide

/-- Claim C4, amended: on a tick where the distance `d` to the current
target (always `steps[0].end` in this source) satisfies `d ≥ eps` and
`d > prev_distance`, the loop takes the deviation arm exactly once: the tick
yields a single Deviated event and does not advance the index — the in-tick
route installation resets it to 0 (so it is unchanged only when it was
already 0). -/
theorem C4_deviation_event [LinearOrder β] (dist : α → α → β) (eps : β)
    (st : IState α β) (sample : α) (newSteps : List (RStep α))
    (s0 n0 : RStep α)
    (h0 : st.steps.head? = some s0)
    (hfar : ¬ dist sample s0.end_location < eps)
    (hinc : st.prev_distance < dist sample s0.end_location)
    (hn : newSteps.head? = some n0) :
    ∃ st', iphoneTick dist eps st sample (some newSteps) = .next st' .deviated ∧
      st'.step_idx = 0 ∧ st'.steps = newSteps := by
  refine ⟨⟨newSteps, 0, dist sample s0.end_location⟩, ?_, rfl, rfl⟩
  simp only [iphoneTick, h0, if_neg hfar, if_pos hinc, hn]

/-- Witness for C4_deviation_event at a concrete deviating tick. -/
theorem C4_deviation_event_witness :
    (([sA, sB] : List (RStep ℤ)).head? = some sA) ∧
    (¬ idist 10 sA.end_location < 3) ∧ ((5 : ℤ) < idist 10 sA.end_location) ∧
    (∃ st', iphoneTick idist 3 ⟨[sA, sB], 1, 5⟩ 10 (some [sC]) =
      .next st' .deviated ∧ st'.step_idx = 0 ∧ st'.steps = [sC]) :=
  ⟨rfl, by decide, by decide,
    C4_deviation_event idist 3 ⟨[sA, sB], 1, 5⟩ 10 [sC] sA sC rfl
      (by decide) (by decide) rfl⟩

/-- Claim C5, counterexample: after the deviation arm installs a new route
and resets `step_idx` to 0, `last_distance` is not unset — line 249
overwrites it with the deviating tick's distance to the OLD route's first
step end (here 15), which is not even the distance to the new route's first
step end (here `idist 15 50 = 35`). -/
theorem C5_counterexample_last_distance_stale :
    iphoneTick idist 3 ⟨[sA, sB], 1, 7⟩ 15 (some [sC]) =
      .next ⟨[sC], 0, 15⟩ .deviated ∧
    (15 : ℤ) ≠ idist 15 sC.end_location := by
  decide

/-- Claim C5, amended: immediately after a new route is installed on
deviation, `step_idx = 0` as claimed, but `prev_distance` (the source's
`last_distance`) is not unset: line 247 recomputes it against the new route
and line 249 immediately overwrites that with the deviating tick's distance
to the old route's first step end, which is the value that survives. -/
theorem C5_reset_state [LinearOrder β] (dist : α → α → β) (eps : β)
    (st : IState α β) (sample : α) (newSteps : List (RStep α))
    (s0 n0 : RStep α)
    (h0 : st.steps.head? = some s0)
    (hfar : ¬ dist sample s0.end_location < eps)
    (hinc : st.prev_distance < dist sample s0.end_location)
    (hn : newSteps.head? = some n0) :
    iphoneTick dist eps st sample (some newSteps) =
      .next ⟨newSteps, 0, dist sample s0.end_location⟩ .deviated := by
  simp only [iphoneTick, h0, if_neg hfar, if_pos hinc, hn]

/-- Witness for C5_reset_state at a concrete deviating tick. -/
theorem C5_reset_state_witness :
    (([sA, sB] : List (RStep ℤ)).head? = some sA) ∧
    (¬ idist 25 sA.end_location < 3) ∧ ((7 : ℤ) < idist 25 sA.end_location) ∧
    iphoneTick idist 3 ⟨[sA, sB], 1, 7⟩ 25 (some [sC]) =
      .next ⟨[sC], 0, idist 25 sA.end_location⟩ .deviated :=
  ⟨rfl, by decide, by decide,
    C5_reset_state idist 3 ⟨[sA, sB], 1, 7⟩ 25 [sC] sA sC rfl
      (by decide) (by decide) rfl⟩

/-- Claim C6, counterexample: a 200/`"OK"` payload with zero steps does not
make route construction fail — `get_directions` of gps_api.py returns the
empty step list as a successful value, neither `None` nor an exception. -/
theorem C6_counterexample_empty_route_value :
    gpsGetDirections zeroStepResp = .val [] ∧
    PyRet.val ([] : List (RStep (ℚ × ℚ))) ≠ .retNone ∧
    PyRet.val ([] : List (RStep (ℚ × ℚ))) ≠ .crash :=
  ⟨rfl, by simp, by simp⟩

/-- Claim C6, amended: route construction performs no zero-step check — a
200/`"OK"` payload with zero steps yields the empty step list as a normal
return value (there is no `EmptyRoute` failure in the code); the session then
raises `IndexError` at its first access `steps[0]` (gps_api.py line 159), so
an empty route is never actually followed.  (The iphone variant returns
`None` here, but only because its `get_directions` returns `None` for every
payload.) -/
theorem C6_empty_route_crashes_later :
    gpsGetDirections zeroStepResp = .val [] ∧
    gpsFirstStep [] = .crash ∧
    iphoneGetDirections 0 zeroStepResp = .retNone :=
  ⟨rfl, rfl, rfl⟩

/-- Claim C3, counterexample: in the gps_api.py loop the guard is
`while step_idx <= len(steps)` (line 167) and a tick entered at
`step_idx = len(steps)` can still increment, so `step_idx = len(steps) + 1`
is reachable: with two steps of distinct instructions and samples hopping
between their ends, three ticks reach `step_idx = 3` on a 2-step route. -/
theorem C3_counterexample_gps_index_overrun :
    GReach idist 50 ⟨[gA, gB], 3, some gB⟩ ∧
    ([gA, gB] : List (RStep ℤ)).length < 3 := by
  refine ⟨?_, by decide⟩
  have h0 : GReach idist 50 ⟨[gA, gB], 0, some gA⟩ := GReach.init _ gA rfl
  have h1 : GReach idist 50 ⟨[gA, gB], 1, some gB⟩ :=
    GReach.step _ _ 10 none h0 (by decide) (by decide)
  have h2 : GReach idist 50 ⟨[gA, gB], 2, some gA⟩ :=
    GReach.step _ _ 0 none h1 (by decide) (by decide)
  exact GReach.step _ _ 10 none h2 (by decide) (by decide)

/-- Claim C3, amended: in the iphone variant the claimed invariant holds —
every reachable state has `step_idx ≤ len(steps)`, and `step_idx =
len(steps)` is terminal because the guard `step_idx < len(steps)` gates
every tick.  In the gps_api variant the guard is `step_idx <= len(steps)`,
so the bound weakens to `step_idx ≤ len(steps) + 1`, with `len(steps) + 1`
(not `len(steps)`) terminal. -/
theorem C3_index_bounds :
    (∀ {α β : Type} [inst : LinearOrder β] (dist : α → α → β) (eps : β)
      (st : IState α β), IReach dist eps st →
        st.step_idx ≤ st.steps.length) ∧
    (∀ {α β : Type} [inst : LinearOrder β] (dist : α → α → β) (thr : β)
      (st : GState α β), GReach dist thr st →
        st.step_idx ≤ st.steps.length + 1) := by
  constructor
  · intro α β inst dist eps st h
    induction h with
    | init steps s0 sample hh => exact Nat.zero_le _
    | step st st' sample rec ev hre hlt heq ih =>
      unfold iphoneTick at heq
      cases hh : st.steps.head? with
      | none => rw [hh] at heq; exact absurd heq (by simp)
      | some s0 =>
        rw [hh] at heq
        dsimp only at heq
        split_ifs at heq with hd1 hd2
        · injection heq with h1 h2
          rw [← h1]
          exact hlt
        · cases rec with
          | none => exact absurd heq (by simp)
          | some ns =>
            dsimp only at heq
            cases hh2 : ns.head? with
            | none => rw [hh2] at heq; exact absurd heq (by simp)
            | some n0 =>
              rw [hh2] at heq
              injection heq with h1 h2
              rw [← h1]
              exact Nat.zero_le _
        · injection heq with h1 h2
          rw [← h1]
          exact Nat.le_of_lt hlt
  · intro α β inst dist thr st h
    induction h with
    | init steps s0 hh => exact Nat.zero_le _
    | step st st' sample rec hre hle heq ih =>
      unfold gpsTick at heq
      rcases hg : get_closest_step dist sample st.steps with ⟨c1, c2⟩
      rw [hg] at heq
      dsimp only at heq
      split_ifs at heq with hd
      · cases hc1 : c1 with
        | none =>
          rw [hc1] at heq
          exact absurd heq (by cases st.prev_step <;> simp)
        | some cs =>
          rw [hc1] at heq
          cases hp : st.prev_step with
          | none => rw [hp] at heq; exact absurd heq (by simp)
          | some ps =>
            rw [hp] at heq
            dsimp only at heq
            split_ifs at heq with hne
            · injection heq with h1
              rw [← h1]
              exact Nat.succ_le_succ hle
            · injection heq with h1
              rw [← h1]
              exact Nat.le_succ_of_le hle
      · cases rec with
        | none => exact absurd heq (by simp)
        | some ns =>
          dsimp only at heq
          injection heq with h1
          rw [← h1]
          exact Nat.zero_le _

/-- Witness for C3_index_bounds: both invariants at concrete reachable
initial states. -/
theorem C3_index_bounds_witness :
    (IReach idist (3 : ℤ) ⟨[sA, sB], 0, idist 5 sA.end_location⟩ ∧
      (⟨[sA, sB], 0, idist 5 sA.end_location⟩ : IState ℤ ℤ).step_idx ≤
        (⟨[sA, sB], 0, idist 5 sA.end_location⟩ : IState ℤ ℤ).steps.length) ∧
    (GReach idist (50 : ℤ) ⟨[gA, gB], 0, some gA⟩ ∧
      (⟨[gA, gB], 0, some gA⟩ : GState ℤ ℤ).step_idx ≤
        (⟨[gA, gB], 0, some gA⟩ : GState ℤ ℤ).steps.length + 1) :=
  ⟨⟨IReach.init _ sA 5 rfl,
      C3_index_bounds.1 idist 3 _ (IReach.init _ sA 5 rfl)⟩,
    ⟨GReach.init _ gA rfl,
      C3_index_bounds.2 idist 50 _ (GReach.init _ gA rfl)⟩⟩

/-- The minimum tracked by `get_closest_step`'s fold never rises, and ends
up at most the distance of every step it visited. -/
lemma closest_fold_le [LinearOrder β] (dist : α → α → β) (c : α)
    (l : List (RStep α)) (acc : Option (RStep α) × WithTop β) :
    (l.foldl (closestStepF dist c) acc).2 ≤ acc.2 ∧
    ∀ t ∈ l, (l.foldl (closestStepF dist c) acc).2 ≤
      ((dist t.end_location c : β) : WithTop β) := by
  induction l generalizing acc with
  | nil => exact ⟨le_refl _, by simp⟩
  | cons s l ih =>
    rw [List.foldl_cons]
    obtain ⟨h1, h2⟩ := ih (closestStepF dist c acc s)
    have hs : (closestStepF dist c acc s).2 ≤ acc.2 ∧
        (closestStepF dist c acc s).2 ≤
          ((dist s.end_location c : β) : WithTop β) := by
      unfold closestStepF
      split_ifs with hlt
      · exact ⟨le_of_lt hlt, le_refl _⟩
      · exact ⟨le_refl _, le_of_not_lt hlt⟩
    refine ⟨h1.trans hs.1, ?_⟩
    intro t ht
    rcases List.mem_cons.mp ht with rfl | ht'
    · exact h1.trans hs.2
    · exact h2 t ht'

/-- The accumulator of `get_closest_step`'s fold is either untouched or
holds some visited step together with exactly its distance. -/
lemma closest_fold_mem [LinearOrder β] (dist : α → α → β) (c : α)
    (l : List (RStep α)) (acc : Option (RStep α) × WithTop β) :
    l.foldl (closestStepF dist c) acc = acc ∨
    ∃ s ∈ l, l.foldl (closestStepF dist c) acc =
      (some s, ((dist s.end_location c : β) : WithTop β)) := by
  induction l generalizing acc with
  | nil => exact Or.inl rfl
  | cons s l ih =>
    rw [List.foldl_cons]
    by_cases hlt : ((dist s.end_location c : β) : WithTop β) < acc.2
    · have hstep : closestStepF dist c acc s =
          (some s, ((dist s.end_location c : β) : WithTop β)) := by
        unfold closestStepF
        rw [if_pos hlt]
      rcases ih (closestStepF dist c acc s) with h | ⟨u, hu, h⟩
      · right
        exact ⟨s, List.mem_cons_self s l, by rw [h, hstep]⟩
      · right
        exact ⟨u, List.mem_cons_of_mem s hu, h⟩
    · have hstep : closestStepF dist c acc s = acc := by
        unfold closestStepF
        rw [if_neg hlt]
      rcases ih (closestStepF dist c acc s) with h | ⟨u, hu, h⟩
      · left
        rw [h, hstep]
      · right
        exact ⟨u, List.mem_cons_of_mem s hu, h⟩

/-- Claim C10: on a non-empty step list `get_closest_step` returns a pair of
some listed step and its own distance, minimal among all listed steps
(strict `<` in the update keeps the first of equally close steps); on the
empty list it returns `(None, float("inf"))`. -/
theorem C10_get_closest_step_correct [LinearOrder β] (dist : α → α → β)
    (c : α) (steps : List (RStep α)) :
    (steps = [] → get_closest_step dist c steps = (none, ⊤)) ∧
    (steps ≠ [] → ∃ s ∈ steps,
      get_closest_step dist c steps =
        (some s, ((dist s.end_location c : β) : WithTop β)) ∧
      ∀ t ∈ steps, dist s.end_location c ≤ dist t.end_location c) := by
  constructor
  · rintro rfl
    rfl
  · intro hne
    obtain ⟨s0, rest, rfl⟩ := List.exists_cons_of_ne_nil hne
    have hstep : closestStepF dist c (none, ⊤) s0 =
        (some s0, ((dist s0.end_location c : β) : WithTop β)) := by
      unfold closestStepF
      rw [if_pos (WithTop.coe_lt_top _)]
    unfold get_closest_step
    rw [List.foldl_cons, hstep]
    have hle := closest_fold_le dist c rest
      (some s0, ((dist s0.end_location c : β) : WithTop β))
    rcases closest_fold_mem dist c rest
        (some s0, ((dist s0.end_location c : β) : WithTop β)) with h | ⟨u, hu, h⟩
    · refine ⟨s0, List.mem_cons_self s0 rest, h, ?_⟩
      intro t ht
      rcases List.mem_cons.mp ht with rfl | ht'
      · exact le_refl _
      · have h2 := hle.2 t ht'
        rw [h] at h2
        exact WithTop.coe_le_coe.mp (by simpa using h2)
    · refine ⟨u, List.mem_cons_of_mem s0 hu, h, ?_⟩
      intro t ht
      rcases List.mem_cons.mp ht with rfl | ht'
      · have h1 := hle.1
        rw [h] at h1
        exact WithTop.coe_le_coe.mp (by simpa using h1)
      · have h2 := hle.2 t ht'
        rw [h] at h2
        exact WithTop.coe_le_coe.mp (by simpa using h2)

/-- Well-formed latitudes land in `[-π/2, π/2]` after conversion. -/
lemma rad_mem (d : ℝ) (hl : -90 ≤ d) (hu : d ≤ 90) :
    pyRadians d ∈ Set.Icc (-(Real.pi / 2)) (Real.pi / 2) := by
  have h180 : (0 : ℝ) < Real.pi / 180 := by positivity
  constructor
  · unfold pyRadians
    nlinarith [mul_nonneg (by linarith : (0 : ℝ) ≤ d + 90) (le_of_lt h180)]
  · unfold pyRadians
    nlinarith [mul_nonneg (by linarith : (0 : ℝ) ≤ 90 - d) (le_of_lt h180)]

/-- Claim C8: for well-formed coordinates (latitudes in `[-90, 90]`,
longitudes in `[-180, 180]`), the haversine intermediate `a` stays in
`[0, 1]`, so `sqrt(1 - a)` is the square root of a non-negative number and
`geodesic_distance` — which is exactly `R * 2 * atan2(sqrt a, sqrt(1-a))` —
is defined with no domain error, antipodal points included. -/
theorem C8_haversine_total (c1 c2 : ℝ × ℝ)
    (ha1 : -90 ≤ c1.1) (ha2 : c1.1 ≤ 90) (hb1 : -90 ≤ c2.1) (hb2 : c2.1 ≤ 90)
    (ho1 : -180 ≤ c1.2) (ho2 : c1.2 ≤ 180)
    (ho3 : -180 ≤ c2.2) (ho4 : c2.2 ≤ 180) :
    0 ≤ haversine_a c1 c2 ∧ haversine_a c1 c2 ≤ 1 ∧
    Real.sqrt (1 - haversine_a c1 c2) ^ 2 = 1 - haversine_a c1 c2 ∧
    geodesic_distance c1 c2 = 6373.0 * 1000 *
      (2 * pyAtan2 (Real.sqrt (haversine_a c1 c2))
        (Real.sqrt (1 - haversine_a c1 c2))) := by
  have hc1 : 0 ≤ Real.cos (pyRadians c1.1) :=
    Real.cos_nonneg_of_mem_Icc (rad_mem c1.1 ha1 ha2)
  have hc2 : 0 ≤ Real.cos (pyRadians c2.1) :=
    Real.cos_nonneg_of_mem_Icc (rad_mem c2.1 hb1 hb2)
  have hlow : 0 ≤ haversine_a c1 c2 := by
    unfold haversine_a
    have := mul_nonneg (mul_nonneg hc1 hc2)
      (sq_nonneg (Real.sin ((pyRadians c2.2 - pyRadians c1.2) / 2)))
    nlinarith [sq_nonneg (Real.sin ((pyRadians c2.1 - pyRadians c1.1) / 2))]
  have hup : haversine_a c1 c2 ≤ 1 := by
    unfold haversine_a
    have hs1 : Real.sin ((pyRadians c2.2 - pyRadians c1.2) / 2) ^ 2 ≤ 1 :=
      Real.sin_sq_le_one _
    have hstep : Real.cos (pyRadians c1.1) * Real.cos (pyRadians c2.1) *
        Real.sin ((pyRadians c2.2 - pyRadians c1.2) / 2) ^ 2 ≤
        Real.cos (pyRadians c1.1) * Real.cos (pyRadians c2.1) :=
      mul_le_of_le_one_right (mul_nonneg hc1 hc2) hs1
    have hhalf : Real.sin ((pyRadians c2.1 - pyRadians c1.1) / 2) ^ 2 =
        1 / 2 - Real.cos (pyRadians c2.1 - pyRadians c1.1) / 2 := by
      have h := Real.sin_sq_eq_half_sub ((pyRadians c2.1 - pyRadians c1.1) / 2)
      rwa [show 2 * ((pyRadians c2.1 - pyRadians c1.1) / 2) =
        pyRadians c2.1 - pyRadians c1.1 by ring] at h
    have hfin : Real.sin ((pyRadians c2.1 - pyRadians c1.1) / 2) ^ 2 +
        Real.cos (pyRadians c1.1) * Real.cos (pyRadians c2.1) ≤ 1 := by
      rw [hhalf, Real.cos_sub]
      nlinarith [Real.cos_le_one (pyRadians c1.1 + pyRadians c2.1),
        Real.cos_add (pyRadians c1.1) (pyRadians c2.1)]
    linarith
  exact ⟨hlow, hup, Real.sq_sqrt (by linarith), rfl⟩

/-- Witness for C8_haversine_total at `(0, 0)` and its antipode `(0, 180)`. -/
theorem C8_haversine_total_witness :
    ((-90 : ℝ) ≤ 0 ∧ (0 : ℝ) ≤ 90 ∧ (-180 : ℝ) ≤ 180) ∧
    (0 ≤ haversine_a ((0 : ℝ), (0 : ℝ)) ((0 : ℝ), (180 : ℝ)) ∧
      haversine_a ((0 : ℝ), (0 : ℝ)) ((0 : ℝ), (180 : ℝ)) ≤ 1 ∧
      Real.sqrt (1 - haversine_a ((0 : ℝ), (0 : ℝ)) ((0 : ℝ), (180 : ℝ))) ^ 2 =
        1 - haversine_a ((0 : ℝ), (0 : ℝ)) ((0 : ℝ), (180 : ℝ)) ∧
      geodesic_distance ((0 : ℝ), (0 : ℝ)) ((0 : ℝ), (180 : ℝ)) =
        6373.0 * 1000 *
          (2 * pyAtan2
            (Real.sqrt (haversine_a ((0 : ℝ), (0 : ℝ)) ((0 : ℝ), (180 : ℝ))))
            (Real.sqrt
              (1 - haversine_a ((0 : ℝ), (0 : ℝ)) ((0 : ℝ), (180 : ℝ)))))) :=
  ⟨⟨by norm_num, by norm_num, by norm_num⟩,
    C8_haversine_total ((0 : ℝ), (0 : ℝ)) ((0 : ℝ), (180 : ℝ))
      (by norm_num) (by norm_num) (by norm_num) (by norm_num)
      (by norm_num) (by norm_num) (by norm_num) (by norm_num)⟩

/-- A rewrite step whose token occurs in the text replaces it. -/
lemma rewriteStep_hit (h : ℚ) (s c w : String) (hin : pyIn c s = true)
    (hg : get_turn_direction h c = some w) :
    rewriteStep h s c = pyReplace s c w := by
  simp [rewriteStep, hin, hg]

/-- A rewrite step whose token does not occur leaves the text alone. -/
lemma rewriteStep_miss (h : ℚ) (s c : String) (hin : pyIn c s = false) :
    rewriteStep h s c = s := by
  simp [rewriteStep, hin]

/-- At heading 0, `"northeast"` (bearing 45, diff 45) resolves to `"right"`. -/
lemma turn_at_zero_northeast :
    get_turn_direction 0 "northeast" = some "right" := by
  have hm : pythonMod ((45 : ℚ) + 360) 360 < 180 := by
    rw [pythonMod_eval ((45 : ℚ) + 360) 360 1 (by norm_num) (by norm_num)]
    norm_num
  unfold get_turn_direction
  rw [show lookupBearing "northeast" = some 45 from rfl]
  simp [hm]

/-- At heading 0, `"north"` (bearing 0, diff 0) resolves to `"right"`. -/
lemma turn_at_zero_north : get_turn_direction 0 "north" = some "right" := by
  have hm : pythonMod (360 : ℚ) 360 < 180 := by
    rw [pythonMod_eval (360 : ℚ) 360 1 (by norm_num) (by norm_num)]
    norm_num
  unfold get_turn_direction
  rw [show lookupBearing "north" = some 0 from rfl]
  simp [hm]

/-- At heading 0, `"east"` (bearing 90, diff 90) resolves to `"right"`. -/
lemma turn_at_zero_east : get_turn_direction 0 "east" = some "right" := by
  have hm : pythonMod ((90 : ℚ) + 360) 360 < 180 := by
    rw [pythonMod_eval ((90 : ℚ) + 360) 360 1 (by norm_num) (by norm_num)]
    norm_num
  unfold get_turn_direction
  rw [show lookupBearing "east" = some 90 from rfl]
  simp [hm]

/-- With the source's iteration order, the instruction `"northeast"` at
heading 0 is rewritten in one hit of the compound token. -/
lemma rewrite_code_order_eval :
    rewriteInstr 0 codeCardinalOrder "northeast" = "right" := by
  unfold rewriteInstr codeCardinalOrder
  rw [List.foldl_cons,
    rewriteStep_hit 0 "northeast" "northeast" "right" (by decide)
      turn_at_zero_northeast,
    show pyReplace "northeast" "northeast" "right" = "right" from by decide]
  rw [List.foldl_cons, rewriteStep_miss 0 "right" "northwest" (by decide)]
  rw [List.foldl_cons, rewriteStep_miss 0 "right" "southeast" (by decide)]
  rw [List.foldl_cons, rewriteStep_miss 0 "right" "southwest" (by decide)]
  rw [List.foldl_cons, rewriteStep_miss 0 "right" "east" (by decide)]
  rw [List.foldl_cons, rewriteStep_miss 0 "right" "west" (by decide)]
  rw [List.foldl_cons, rewriteStep_miss 0 "right" "north" (by decide)]
  rw [List.foldl_cons, rewriteStep_miss 0 "right" "south" (by decide)]
  rw [List.foldl_nil]

/-- With the reversed iteration order, the same instruction is corrupted by
partial matches: `"north"` then `"east"` fire inside `"northeast"`. -/
lemma rewrite_reverse_order_eval :
    rewriteInstr 0 codeCardinalOrder.reverse "northeast" = "rightright" := by
  unfold rewriteInstr
  rw [show codeCardinalOrder.reverse =
    ["south", "north", "west", "east", "southwest", "southeast",
      "northwest", "northeast"] from by decide]
  rw [List.foldl_cons, rewriteStep_miss 0 "northeast" "south" (by decide)]
  rw [List.foldl_cons,
    rewriteStep_hit 0 "northeast" "north" "right" (by decide)
      turn_at_zero_north,
    show pyReplace "northeast" "north" "right" = "righteast" from by decide]
  rw [List.foldl_cons, rewriteStep_miss 0 "righteast" "west" (by decide)]
  rw [List.foldl_cons,
    rewriteStep_hit 0 "righteast" "east" "right" (by decide)
      turn_at_zero_east,
    show pyReplace "righteast" "east" "right" = "rightright" from by decide]
  rw [List.foldl_cons, rewriteStep_miss 0 "rightright" "southwest" (by decide)]
  rw [List.foldl_cons, rewriteStep_miss 0 "rightright" "southeast" (by decide)]
  rw [List.foldl_cons, rewriteStep_miss 0 "rightright" "northwest" (by decide)]
  rw [List.foldl_cons, rewriteStep_miss 0 "rightright" "northeast" (by decide)]
  rw [List.foldl_nil]

/-- Claim C9, counterexample: `"east"` IS a substring of `"northeast"`
(both are among the eight cardinal names, and they differ), and the rewrite
pass is order-dependent: on the instruction `"northeast"` at heading 0 the
source's order yields `"right"` while the reversed order yields
`"rightright"`. -/
theorem C9_counterexample_substring_order :
    (pyIn "east" "northeast" = true ∧ "east" ∈ codeCardinalOrder ∧
      "northeast" ∈ codeCardinalOrder ∧ "east" ≠ "northeast") ∧
    rewriteInstr 0 codeCardinalOrder "northeast" ≠
      rewriteInstr 0 codeCardinalOrder.reverse "northeast" := by
  refine ⟨⟨by decide, by decide, by decide, by decide⟩, ?_⟩
  rw [rewrite_code_order_eval, rewrite_reverse_order_eval]
  decide

/-- Claim C9, amended: among the eight cardinal names, each simple name
(north, south, east, west) is a substring of two compound names, so the
rewrite output does depend on application order; the code fixes the order
`[northeast, northwest, southeast, southwest, east, west, north, south]`,
which visits every compound name before the simple names it contains, and
under that order the compound token is resolved whole (`"northeast"` ↦
`"right"`), whereas an order visiting the simple names first corrupts it
(`"northeast"` ↦ `"rightright"`). -/
theorem C9_order_dependence :
    pyIn "north" "northeast" = true ∧ pyIn "east" "southeast" = true ∧
    pyIn "west" "northwest" = true ∧ pyIn "south" "southwest" = true ∧
    codeCardinalOrder = ["northeast", "northwest", "southeast", "southwest",
      "east", "west", "north", "south"] ∧
    rewriteInstr 0 codeCardinalOrder "northeast" = "right" ∧
    rewriteInstr 0 codeCardinalOrder.reverse "northeast" = "rightright" :=
  ⟨by decide, by decide, by decide, by decide, rfl,
    rewrite_code_order_eval, rewrite_reverse_order_eval⟩

/-- The two-valued turn word as a function of the angle difference. -/
lemma turn_word_spec (q : ℚ) :
    ((if q < 180 then "right" else "left") = "right" ↔ q < 180) ∧
    ((if q < 180 then "right" else "left") = "left" ↔ 180 ≤ q) ∧
    (q = 0 → (if q < 180 then "right" else "left") = "right") ∧
    (q = 180 → (if q < 180 then "right" else "left") = "left") := by
  by_cases hq : q < 180
  · rw [if_pos hq]
    refine ⟨by simp [hq],
      ⟨fun hc => absurd hc (by decide), fun hge => absurd hq (not_lt.mpr hge)⟩,
      fun _ => rfl,
      fun h180 => by rw [h180] at hq; exact absurd hq (by norm_num)⟩
  · rw [if_neg hq]
    refine ⟨⟨fun hc => absurd hc (by decide), fun hlt => absurd hlt hq⟩,
      by simp [not_lt.mp hq],
      fun h0 => by rw [h0] at hq; exact absurd (by norm_num : (0 : ℚ) < 180) hq,
      fun _ => rfl⟩

/-- `get_turn_direction` through a successful dict lookup. -/
lemma turn_for_of_lookup (h t : ℚ) (c : String)
    (hc : lookupBearing c = some t) :
    (get_turn_direction h c = some "right" ↔
      pythonMod (t - h + 360) 360 < 180) ∧
    (get_turn_direction h c = some "left" ↔
      180 ≤ pythonMod (t - h + 360) 360) ∧
    (pythonMod (t - h + 360) 360 = 0 → get_turn_direction h c = some "right") ∧
    (pythonMod (t - h + 360) 360 = 180 → get_turn_direction h c = some "left") := by
  have hts := turn_word_spec (pythonMod (t - h + 360) 360)
  unfold get_turn_direction
  rw [hc]
  simp only [Option.map_some', Option.some.injEq]
  exact hts

/-- Claim C7: for every heading in `[0, 360)` and every entry `(name,
bearing)` of the cardinal dict, the resolved turn is `"right"` exactly when
`diff = (bearing - heading + 360) % 360 < 180` and `"left"` exactly
otherwise; in particular `diff = 0` gives `"right"` and `diff = 180` gives
`"left"`, and the result is always one of the two words. -/
theorem C7_turn_for_correct (h : ℚ) (h0 : 0 ≤ h) (h1 : h < 360)
    (p : String × ℚ) (hp : p ∈ cardinal_directions) :
    (get_turn_direction h p.1 = some "right" ↔
      pythonMod (p.2 - h + 360) 360 < 180) ∧
    (get_turn_direction h p.1 = some "left" ↔
      180 ≤ pythonMod (p.2 - h + 360) 360) ∧
    (pythonMod (p.2 - h + 360) 360 = 0 →
      get_turn_direction h p.1 = some "right") ∧
    (pythonMod (p.2 - h + 360) 360 = 180 →
      get_turn_direction h p.1 = some "left") := by
  fin_cases hp <;> exact turn_for_of_lookup h _ _ rfl

/-- Witness for C7_turn_for_correct at heading 0 and cardinal `"north"`. -/
theorem C7_turn_for_correct_witness :
    (0 : ℚ) ≤ 0 ∧ (0 : ℚ) < 360 ∧
    (("north", (0 : ℚ)) ∈ cardinal_directions) ∧
    ((get_turn_direction 0 "north" = some "right" ↔
        pythonMod ((0 : ℚ) - 0 + 360) 360 < 180) ∧
      (get_turn_direction 0 "north" = some "left" ↔
        180 ≤ pythonMod ((0 : ℚ) - 0 + 360) 360) ∧
      (pythonMod ((0 : ℚ) - 0 + 360) 360 = 0 →
        get_turn_direction 0 "north" = some "right") ∧
      (pythonMod ((0 : ℚ) - 0 + 360) 360 = 180 →
        get_turn_direction 0 "north" = some "left")) :=
  ⟨le_refl 0, by norm_num, List.mem_cons_self _ _,
    C7_turn_for_correct 0 (le_refl 0) (by norm_num) ("north", 0)
      (List.mem_cons_self _ _)⟩

/-- Witness for C10_get_closest_step_correct: a concrete two-step route and
sample at 3; the closest step is `gA` at distance 3. -/
theorem C10_get_closest_step_correct_witness :
    ([gA, gB] : List (RStep ℤ)) ≠ [] ∧
    ∃ s ∈ ([gA, gB] : List (RStep ℤ)),
      get_closest_step idist 3 [gA, gB] =
        (some s, ((idist s.end_location 3 : ℤ) : WithTop ℤ)) ∧
      ∀ t ∈ ([gA, gB] : List (RStep ℤ)),
        idist s.end_location 3 ≤ idist t.end_location 3 :=
  ⟨by decide, (C10_get_closest_step_correct idist 3 [gA, gB]).2 (by decide)⟩

end CVNav
